import Mathlib

/-!
Shallow embedding of
`Packs/Netskope/Integrations/NetskopeEventCollector/NetskopeEventCollector.py`.

Event records are Python dicts; the integration only ever reads the fields
`_id`, `timestamp` and `event_type` of a record, so an event is embedded as a
structure with those three fields (`_id` is rendered `id`).  A checkpoint
dictionary (`last_run`) is an association list from event-type name to an
epoch-seconds integer; `List.lookup` models Python dict lookup via `.get`
(returning `Option`), and a `KeyError` raised by `last_run['k']` is modelled
with `Except String` carrying the offending key.  Python string comparison
(used as the sort key on `_id`) is lexicographic by Unicode code point; it is
embedded as `strLe` below, a structurally recursive comparison on the
strings' character lists, because Lean's built-in `String.ltb` does not
reduce inside the kernel.  The HTTP layer is an oracle `Http` from requests
to parsed response bodies, and the fetch functions additionally return the
list of requests they issued, so that claims about which endpoints were
queried can be stated.
-/

namespace Netskope

/-! ### Python string comparison (lexicographic by code point) -/

/-- Lexicographic `<=` on character lists, comparing code points, exactly as
Python compares strings. -/
def lexLe : List Char → List Char → Bool
  | [], _ => true
  | _ :: _, [] => false
  | a :: as, b :: bs =>
    if a.toNat < b.toNat then true
    else if b.toNat < a.toNat then false
    else lexLe as bs

/-- Python `a <= b` on strings. -/
def strLe (a b : String) : Bool := lexLe a.data b.data

/-! ### Data model -/

/-- An event record, restricted to the fields the integration reads:
`_id` (string), `timestamp` (epoch seconds) and the injected `event_type`
tag.  The tag is overwritten by the fetch loops (`event['event_type'] = t`). -/
structure Event where
  id : String
  timestamp : Int
  event_type : String
deriving DecidableEq, Repr

/-- A checkpoint dictionary: event-type name ↦ epoch-seconds watermark. -/
def Dict := List (String × Int)

instance : DecidableEq Dict := inferInstanceAs (DecidableEq (List (String × Int)))

/-- Decidable equality for `Except`, used to evaluate `get_last_run` results
on concrete inputs. -/
def exceptDecEq {ε α : Type} [DecidableEq ε] [DecidableEq α] : DecidableEq (Except ε α) :=
  fun a b =>
    match a, b with
    | .ok x, .ok y =>
      match decEq x y with
      | isTrue h => isTrue (h ▸ rfl)
      | isFalse h => isFalse fun hc => h (Except.ok.inj hc)
    | .error x, .error y =>
      match decEq x y with
      | isTrue h => isTrue (h ▸ rfl)
      | isFalse h => isFalse fun hc => h (Except.error.inj hc)
    | .ok _, .error _ => isFalse fun hc => Except.noConfusion hc
    | .error _, .ok _ => isFalse fun hc => Except.noConfusion hc

instance : DecidableEq (Except String Dict) := exceptDecEq

/-- `EVENT_TYPES_V1 = ['application', 'audit', 'network']` -/
def EVENT_TYPES_V1 : List String := ["application", "audit", "network"]

/-- `EVENT_TYPES_V2 = ['alert', 'application', 'audit', 'network']` -/
def EVENT_TYPES_V2 : List String := ["alert", "application", "audit", "network"]

/-- The comparison `lambda k: k.get('_id')` used as the sort key:
record `a` precedes `b` when `a._id <= b._id` (Python string comparison). -/
def idLe (a b : Event) : Prop := strLe a.id b.id = true

instance : DecidableRel idLe := fun a b => inferInstanceAs (Decidable (strLe a.id b.id = true))

/-- The strict version of `idLe`, used to compare sorted partitions whose
`_id`s are pairwise distinct. -/
def idLt (a b : Event) : Prop := idLe a b ∧ a.id ≠ b.id

/-! ### Checkpoint tracker -/

/-- `get_sorted_events_by_type`: filter the batch to the records tagged with
`event_type`, then sort the partition (stably) by `_id`.  Python's `list.sort`
is a stable sort, so any stable sort by the same key computes the same list;
`List.insertionSort` with a `≤` relation is stable. -/
def get_sorted_events_by_type (events : List Event) (event_type : String) : List Event :=
  List.insertionSort idLe (events.filter (fun e => e.event_type == event_type))

/-- One leg of `get_last_run`: `if not part: last_run[key] else: part[-1]['timestamp']`.
`part[-1]` is the last element; `last_run[key]` raises `KeyError key` when the
key is absent. -/
def timeFor (part : List Event) (last_run : Dict) (key : String) : Except String Int :=
  match part.getLast? with
  | some e => .ok e.timestamp
  | none =>
    match List.lookup key last_run with
    | some v => .ok v
    | none => .error key

/-- `get_last_run(events, last_run)`: partition and sort the batch by the four
event types, then for each type take the last sorted record's timestamp, or
the previous checkpoint value when the partition is empty (raising `KeyError`
if that key is also absent, in the source's evaluation order: alert,
application, audit, network). -/
def get_last_run (events : List Event) (last_run : Dict) : Except String Dict :=
  match timeFor (get_sorted_events_by_type events "alert") last_run "alert" with
  | .error k => .error k
  | .ok alerts_time =>
    match timeFor (get_sorted_events_by_type events "application") last_run "application" with
    | .error k => .error k
    | .ok applications_time =>
      match timeFor (get_sorted_events_by_type events "audit") last_run "audit" with
      | .error k => .error k
      | .ok audit_time =>
        match timeFor (get_sorted_events_by_type events "network") last_run "network" with
        | .error k => .error k
        | .ok network_time =>
          .ok [("alert", alerts_time), ("application", applications_time),
               ("audit", audit_time), ("network", network_time)]

/-! ### Transport client and fetch loops -/

/-- A JSON-ish parameter value as it appears in a request's query parameters
or JSON body: a string, an integer, or Python `None`. -/
inductive PVal where
  | str (s : String)
  | int (n : Int)
  | null
deriving DecidableEq, Repr

/-- `Optional[int]` rendered as a parameter value. -/
def optInt : Option Int → PVal
  | some n => .int n
  | none => .null

/-- One HTTP request as issued through `BaseClient._http_request`.  `params`
holds the effective query parameters: the session-level parameters (where a
v1 client stores its token) merged with the per-call parameters.  `headers`
holds the per-call headers, `json_data` the JSON body. -/
structure Request where
  method : String
  url_suffix : String
  params : List (String × PVal)
  headers : List (String × String)
  json_data : List (String × PVal)
deriving DecidableEq, Repr

/-- The parsed JSON body of a vendor response, restricted to the fields the
integration reads: `status`/`data` (v1) and `ok`/`result` (v2).  Each field
is optional, as `response.get(...)` is. -/
structure Response where
  status : Option String := none
  ok : Option Int := none
  data : Option (List Event) := none
  result : Option (List Event) := none
deriving Repr

/-- The HTTP layer as an oracle from requests to parsed JSON bodies. -/
def Http := Request → Response

/-- The client state established by `Client.__init__`: for `api_version ==
'v1'` the token is stored in the session's query parameters
(`self._session.params['token'] = token`), otherwise in
`self.headers = {'Netskope-Api-Token': token}`. -/
structure ClientState where
  session_params : List (String × PVal)
  headers : List (String × String)
deriving Repr

def Client.init (token : String) (api_version : String) : ClientState :=
  if api_version = "v1" then
    { session_params := [("token", .str token)], headers := [] }
  else
    { session_params := [], headers := [("Netskope-Api-Token", token)] }

/-- `self._http_request(...)`: session-level query parameters are merged into
every request issued through the session. -/
def mkRequest (c : ClientState) (url_suffix : String) (callParams : List (String × PVal))
    (callHeaders : List (String × String)) (body : List (String × PVal)) : Request :=
  { method := "GET", url_suffix := url_suffix, params := c.session_params ++ callParams,
    headers := callHeaders, json_data := body }

/-- `event['event_type'] = event_type` -/
def tagEvent (t : String) (e : Event) : Event := { e with event_type := t }

/-- The request issued for one event type in `get_events_request_v1`. -/
def v1EventsReq (c : ClientState) (last_run : Dict) (limit : Option Int)
    (event_type : String) : Request :=
  mkRequest c "events" [] []
    [("timeperiod", optInt (List.lookup event_type last_run)),
     ("limit", optInt limit), ("type", .str event_type)]

/-- The loop body of `get_events_request_v1`, with the `events` accumulator
explicit and the issued requests recorded.  A response whose `status` is not
`'success'` contributes nothing and the loop continues. -/
def v1Loop (c : ClientState) (http : Http) (last_run : Dict) (limit : Option Int)
    (events : List Event) (reqs : List Request) : List String → List Event × List Request
  | [] => (events, reqs)
  | t :: ts =>
    let req := v1EventsReq c last_run limit t
    let response := http req
    if response.status = some "success" then
      let results := (response.data.getD []).map (tagEvent t)
      v1Loop c http last_run limit (events ++ results) (reqs ++ [req]) ts
    else
      v1Loop c http last_run limit events (reqs ++ [req]) ts

/-- `Client.get_events_request_v1`, returning the event list together with
the requests it issued. -/
def get_events_request_v1 (c : ClientState) (http : Http) (last_run : Dict)
    (limit : Option Int) : List Event × List Request :=
  v1Loop c http last_run limit [] [] EVENT_TYPES_V1

/-- The single request issued by `v1_get_alerts_request`. -/
def v1AlertsReq (c : ClientState) (last_run : Dict) (limit : Option Int) : Request :=
  mkRequest c "alerts" [] []
    [("timeperiod", optInt (List.lookup "alert" last_run)), ("limit", optInt limit)]

/-- `Client.v1_get_alerts_request`: one GET against `alerts`; on a
`'success'` response, the results tagged as `alert`, otherwise `[]`. -/
def v1_get_alerts_request (c : ClientState) (http : Http) (last_run : Dict)
    (limit : Option Int) : List Event × List Request :=
  let req := v1AlertsReq c last_run limit
  let response := http req
  if response.status = some "success" then
    ((response.data.getD []).map (tagEvent "alert"), [req])
  else
    ([], [req])

/-- The request issued for one event type in `get_events_request_v2`: its own
endpoint path, query parameters `timeperiod`/`limit`, and the client's
token header. -/
def v2EventsReq (c : ClientState) (last_run : Dict) (limit : Option Int)
    (event_type : String) : Request :=
  mkRequest c ("events/data/" ++ event_type)
    [("timeperiod", optInt (List.lookup event_type last_run)), ("limit", optInt limit)]
    c.headers []

/-- The loop body of `get_events_request_v2`.  On a response with `ok == 1`
the tagged results are appended and, when `is_test` is set, the accumulated
events are returned immediately; otherwise the loop continues. -/
def v2Loop (c : ClientState) (http : Http) (last_run : Dict) (limit : Option Int)
    (is_test : Bool) (events : List Event) (reqs : List Request) :
    List String → List Event × List Request
  | [] => (events, reqs)
  | t :: ts =>
    let req := v2EventsReq c last_run limit t
    let response := http req
    if response.ok = some 1 then
      let events2 := events ++ (response.result.getD []).map (tagEvent t)
      if is_test then (events2, reqs ++ [req])
      else v2Loop c http last_run limit is_test events2 (reqs ++ [req]) ts
    else
      v2Loop c http last_run limit is_test events (reqs ++ [req]) ts

/-- `Client.get_events_request_v2`, returning the event list together with
the requests it issued. -/
def get_events_request_v2 (c : ClientState) (http : Http) (last_run : Dict)
    (limit : Option Int) (is_test : Bool) : List Event × List Request :=
  v2Loop c http last_run limit is_test [] [] EVENT_TYPES_V2

/-! ### Command functions and checkpoint bootstrap -/

/-- `test_module(client, api_version, last_run)`.  Both fetch paths return a
Python *list*; when that list is empty the `else` branch evaluates
`response.get("errorCode")` on a list, which raises `AttributeError` — so the
failure path raises instead of returning a report string.  The raised
exception is modelled as `Except.error "AttributeError"`. -/
def test_module (c : ClientState) (http : Http) (api_version : String)
    (last_run : Dict) : Except String String :=
  let response :=
    if api_version = "v1" then
      (v1_get_alerts_request c http [("alert", 604800)] (some 1)).1
    else
      (get_events_request_v2 c http last_run (some 1) true).1
  if response.isEmpty then .error "AttributeError"
  else .ok "ok"

/-- The checkpoint bootstrap in `main`: the stored mapping is replaced by a
fresh four-key mapping built from the first-fetch lookback only when *none*
of the four type keys is present (`'alert' not in last_run and ...`).
`first_fetch` is modelled as the already-converted epoch-seconds value. -/
def init_last_run (stored : Dict) (first_fetch : Int) : Dict :=
  if (List.lookup "alert" stored).isNone ∧ (List.lookup "application" stored).isNone
      ∧ (List.lookup "audit" stored).isNone ∧ (List.lookup "network" stored).isNone then
    [("alert", first_fetch), ("application", first_fetch),
     ("audit", first_fetch), ("network", first_fetch)]
  else
    stored

/-! ### Concrete fixtures used by counterexamples and witnesses -/

/-- A fully populated checkpoint mapping. -/
def lr0 : Dict := [("alert", 0), ("application", 0), ("audit", 0), ("network", 0)]

/-- An HTTP oracle whose every response is an empty JSON object: no
`status`/`ok` success marker anywhere. -/
def httpEmptyV2 : Http := fun _ => {}

/-- An HTTP oracle for which the `alert` endpoint answers successfully but
with zero records, the `application` endpoint answers successfully with one
record, and everything else fails. -/
def httpAlertEmpty : Http := fun r =>
  if r.url_suffix = "events/data/alert" then { ok := some 1, result := some [] }
  else if r.url_suffix = "events/data/application" then
    { ok := some 1, result := some [⟨"1", 10, ""⟩] }
  else {}

/-! ## Theorems -/

/-! ### Properties of the string comparison -/

theorem lexLe_refl : ∀ as, lexLe as as = true
  | [] => rfl
  | a :: as => by simp [lexLe, lexLe_refl as]

theorem lexLe_head {a b : Char} {as bs : List Char} (h : lexLe (a :: as) (b :: bs) = true) :
    a.toNat ≤ b.toNat := by
  by_contra hc
  have h1 : ¬ a.toNat < b.toNat := by omega
  have h2 : b.toNat < a.toNat := by omega
  simp only [lexLe, if_neg h1, if_pos h2] at h
  exact Bool.false_ne_true h

theorem lexLe_tail {a b : Char} {as bs : List Char} (hab : a.toNat = b.toNat)
    (h : lexLe (a :: as) (b :: bs) = true) : lexLe as bs = true := by
  have h1 : ¬ a.toNat < b.toNat := by omega
  have h2 : ¬ b.toNat < a.toNat := by omega
  simpa only [lexLe, if_neg h1, if_neg h2] using h

theorem lexLe_total : ∀ as bs, lexLe as bs = true ∨ lexLe bs as = true
  | [], _ => Or.inl rfl
  | _ :: _, [] => Or.inr rfl
  | a :: as, b :: bs => by
    simp only [lexLe]
    rcases Nat.lt_trichotomy a.toNat b.toNat with h | h | h
    · simp [h]
    · simp only [h, lt_irrefl, if_neg (lt_irrefl _)]
      exact lexLe_total as bs
    · simp [h, Nat.lt_asymm h]

theorem lexLe_trans : ∀ as bs cs, lexLe as bs = true → lexLe bs cs = true → lexLe as cs = true
  | [], _, _, _, _ => rfl
  | _ :: _, [], _, h1, _ => by simp [lexLe] at h1
  | _ :: _, _ :: _, [], _, h2 => by simp [lexLe] at h2
  | a :: as, b :: bs, c :: cs, h1, h2 => by
    have hab := lexLe_head h1
    have hbc := lexLe_head h2
    by_cases hac : a.toNat < c.toNat
    · simp [lexLe, hac]
    · have h3 : ¬ c.toNat < a.toNat := by omega
      have key : lexLe as cs = true :=
        lexLe_trans as bs cs (lexLe_tail (by omega) h1) (lexLe_tail (by omega) h2)
      simp only [lexLe, if_neg hac, if_neg h3]
      exact key

theorem lexLe_antisymm : ∀ as bs, lexLe as bs = true → lexLe bs as = true → as = bs
  | [], [], _, _ => rfl
  | [], _ :: _, _, h2 => by simp [lexLe] at h2
  | _ :: _, [], h1, _ => by simp [lexLe] at h1
  | a :: as, b :: bs, h1, h2 => by
    have hab := lexLe_head h1
    have hba := lexLe_head h2
    have hn : a.toNat = b.toNat := by omega
    have hch : a = b := Char.ext (UInt32.ext_iff.mpr hn)
    have htl : as = bs :=
      lexLe_antisymm as bs (lexLe_tail (by omega) h1) (lexLe_tail (by omega) h2)
    rw [hch, htl]

theorem strLe_antisymm {a b : String} (h1 : strLe a b = true) (h2 : strLe b a = true) : a = b := by
  cases a; cases b
  exact congrArg String.mk (lexLe_antisymm _ _ h1 h2)

instance : IsTotal Event idLe := ⟨fun a b => lexLe_total a.id.data b.id.data⟩

instance : IsTrans Event idLe := ⟨fun a b c h1 h2 => lexLe_trans a.id.data b.id.data c.id.data h1 h2⟩

instance : IsAntisymm Event idLt :=
  ⟨fun _ _ h1 h2 => absurd (strLe_antisymm h1.1 h2.1) h1.2⟩

/-! ### Helper lemmas about the checkpoint tracker -/

theorem getLast?_mem {α : Type} {l : List α} {e : α} (h : l.getLast? = some e) : e ∈ l := by
  rcases List.mem_getLast?_eq_getLast (show e ∈ l.getLast? from h) with ⟨hne, he⟩
  rw [he]
  exact List.getLast_mem hne

theorem sorted_perm_filter (events : List Event) (t : String) :
    (get_sorted_events_by_type events t).Perm (events.filter (fun e => e.event_type == t)) :=
  List.perm_insertionSort idLe _

theorem mem_sorted {e : Event} {events : List Event} {t : String}
    (h : e ∈ get_sorted_events_by_type events t) : e ∈ events ∧ e.event_type = t := by
  have hf := (sorted_perm_filter events t).mem_iff.mp h
  rcases List.mem_filter.mp hf with ⟨h1, h2⟩
  exact ⟨h1, by simpa using h2⟩

theorem sorted_eq_nil_iff {events : List Event} {t : String} :
    get_sorted_events_by_type events t = [] ↔
      events.filter (fun e => e.event_type == t) = [] := by
  constructor
  · intro h
    have hp := sorted_perm_filter events t
    rw [h] at hp
    exact hp.symm.eq_nil
  · intro h
    unfold get_sorted_events_by_type
    rw [h]
    rfl

theorem timeFor_ok_of_isSome (part : List Event) {lr : Dict} {key : String}
    (h : (List.lookup key lr).isSome) : ∃ x, timeFor part lr key = .ok x := by
  unfold timeFor
  cases hl : part.getLast? with
  | some e => exact ⟨e.timestamp, rfl⟩
  | none =>
    rcases Option.isSome_iff_exists.mp h with ⟨v, hv⟩
    rw [hv]
    exact ⟨v, rfl⟩

theorem timeFor_error_iff {part : List Event} {lr : Dict} {key j : String} :
    timeFor part lr key = .error j ↔ j = key ∧ part = [] ∧ List.lookup key lr = none := by
  unfold timeFor
  cases hl : part.getLast? with
  | some e =>
    constructor
    · intro h
      exact absurd h (by simp)
    · rintro ⟨_, hpart, _⟩
      rw [hpart] at hl
      simp at hl
  | none =>
    have hpart : part = [] := List.getLast?_eq_none_iff.mp hl
    cases hv : List.lookup key lr with
    | some v =>
      constructor
      · intro h
        exact absurd h (by simp)
      · rintro ⟨_, _, hn⟩
        exact Option.noConfusion hn
    | none =>
      constructor
      · intro h
        exact ⟨(Except.error.inj h).symm, hpart, rfl⟩
      · rintro ⟨hj, _, _⟩
        rw [hj]

theorem le_of_timeFor_ok {events : List Event} {lr : Dict} {t : String} {v x : Int}
    (hmono : ∀ e ∈ events, ∀ w : Int, List.lookup e.event_type lr = some w → w ≤ e.timestamp)
    (h : timeFor (get_sorted_events_by_type events t) lr t = .ok x)
    (hv : List.lookup t lr = some v) : v ≤ x := by
  unfold timeFor at h
  cases hl : (get_sorted_events_by_type events t).getLast? with
  | some e =>
    rw [hl] at h
    have hx : x = e.timestamp := (Except.ok.inj h).symm
    rcases mem_sorted (getLast?_mem hl) with ⟨hmem, het⟩
    subst hx
    exact hmono e hmem v (by rw [het]; exact hv)
  | none =>
    rw [hl, hv] at h
    exact le_of_eq (Except.ok.inj h)

theorem get_last_run_ok_of {events : List Event} {lr : Dict} {ta tp td tn : Int}
    (h1 : timeFor (get_sorted_events_by_type events "alert") lr "alert" = .ok ta)
    (h2 : timeFor (get_sorted_events_by_type events "application") lr "application" = .ok tp)
    (h3 : timeFor (get_sorted_events_by_type events "audit") lr "audit" = .ok td)
    (h4 : timeFor (get_sorted_events_by_type events "network") lr "network" = .ok tn) :
    get_last_run events lr =
      .ok [("alert", ta), ("application", tp), ("audit", td), ("network", tn)] := by
  unfold get_last_run
  rw [h1, h2, h3, h4]

theorem get_last_run_ok_elim {events : List Event} {lr : Dict} {m : Dict}
    (h : get_last_run events lr = .ok m) :
    ∃ ta tp td tn : Int,
      timeFor (get_sorted_events_by_type events "alert") lr "alert" = .ok ta ∧
      timeFor (get_sorted_events_by_type events "application") lr "application" = .ok tp ∧
      timeFor (get_sorted_events_by_type events "audit") lr "audit" = .ok td ∧
      timeFor (get_sorted_events_by_type events "network") lr "network" = .ok tn ∧
      m = [("alert", ta), ("application", tp), ("audit", td), ("network", tn)] := by
  unfold get_last_run at h
  cases e1 : timeFor (get_sorted_events_by_type events "alert") lr "alert" with
  | error j => rw [e1] at h; exact absurd h (by simp)
  | ok ta =>
    rw [e1] at h
    cases e2 : timeFor (get_sorted_events_by_type events "application") lr "application" with
    | error j => rw [e2] at h; exact absurd h (by simp)
    | ok tp =>
      rw [e2] at h
      cases e3 : timeFor (get_sorted_events_by_type events "audit") lr "audit" with
      | error j => rw [e3] at h; exact absurd h (by simp)
      | ok td =>
        rw [e3] at h
        cases e4 : timeFor (get_sorted_events_by_type events "network") lr "network" with
        | error j => rw [e4] at h; exact absurd h (by simp)
        | ok tn =>
          rw [e4] at h
          exact ⟨ta, tp, td, tn, rfl, rfl, rfl, rfl, (Except.ok.inj h).symm⟩

theorem get_last_run_error_elim {events : List Event} {lr : Dict} {k : String}
    (h : get_last_run events lr = .error k) :
    k ∈ EVENT_TYPES_V2 ∧ get_sorted_events_by_type events k = [] ∧
      List.lookup k lr = none := by
  unfold get_last_run at h
  cases e1 : timeFor (get_sorted_events_by_type events "alert") lr "alert" with
  | error j =>
    rw [e1] at h
    have hj : j = k := Except.error.inj h
    rcases timeFor_error_iff.mp e1 with ⟨hjk, hpart, hlook⟩
    have hk : k = "alert" := by rw [← hj, hjk]
    subst hk
    exact ⟨by simp [EVENT_TYPES_V2], hpart, hlook⟩
  | ok ta =>
    rw [e1] at h
    cases e2 : timeFor (get_sorted_events_by_type events "application") lr "application" with
    | error j =>
      rw [e2] at h
      have hj : j = k := Except.error.inj h
      rcases timeFor_error_iff.mp e2 with ⟨hjk, hpart, hlook⟩
      have hk : k = "application" := by rw [← hj, hjk]
      subst hk
      exact ⟨by simp [EVENT_TYPES_V2], hpart, hlook⟩
    | ok tp =>
      rw [e2] at h
      cases e3 : timeFor (get_sorted_events_by_type events "audit") lr "audit" with
      | error j =>
        rw [e3] at h
        have hj : j = k := Except.error.inj h
        rcases timeFor_error_iff.mp e3 with ⟨hjk, hpart, hlook⟩
        have hk : k = "audit" := by rw [← hj, hjk]
        subst hk
        exact ⟨by simp [EVENT_TYPES_V2], hpart, hlook⟩
      | ok td =>
        rw [e3] at h
        cases e4 : timeFor (get_sorted_events_by_type events "network") lr "network" with
        | error j =>
          rw [e4] at h
          have hj : j = k := Except.error.inj h
          rcases timeFor_error_iff.mp e4 with ⟨hjk, hpart, hlook⟩
          have hk : k = "network" := by rw [← hj, hjk]
          subst hk
          exact ⟨by simp [EVENT_TYPES_V2], hpart, hlook⟩
        | ok tn =>
          rw [e4] at h
          exact absurd h (by simp)

theorem sorted_eq_of_perm {l1 l2 : List Event} {t : String} (hperm : l1.Perm l2)
    (hnodup : ((l1.filter (fun e => e.event_type == t)).map Event.id).Nodup) :
    get_sorted_events_by_type l1 t = get_sorted_events_by_type l2 t := by
  have hpf : (l1.filter (fun e => e.event_type == t)).Perm
      (l2.filter (fun e => e.event_type == t)) := hperm.filter _
  have hps : (get_sorted_events_by_type l1 t).Perm (get_sorted_events_by_type l2 t) :=
    (sorted_perm_filter l1 t).trans (hpf.trans (sorted_perm_filter l2 t).symm)
  have hn1 : ((get_sorted_events_by_type l1 t).map Event.id).Nodup :=
    ((sorted_perm_filter l1 t).map Event.id).nodup_iff.mpr hnodup
  have hn2 : ((get_sorted_events_by_type l2 t).map Event.id).Nodup :=
    (hps.map Event.id).nodup_iff.mp hn1
  have hs1 : List.Sorted idLt (get_sorted_events_by_type l1 t) := by
    have hle : List.Sorted idLe (get_sorted_events_by_type l1 t) :=
      List.sorted_insertionSort idLe _
    have hne : (get_sorted_events_by_type l1 t).Pairwise (fun a b => a.id ≠ b.id) :=
      List.pairwise_map.mp hn1
    exact (hle.and hne).imp fun hab => hab
  have hs2 : List.Sorted idLt (get_sorted_events_by_type l2 t) := by
    have hle : List.Sorted idLe (get_sorted_events_by_type l2 t) :=
      List.sorted_insertionSort idLe _
    have hne : (get_sorted_events_by_type l2 t).Pairwise (fun a b => a.id ≠ b.id) :=
      List.pairwise_map.mp hn2
    exact (hle.and hne).imp fun hab => hab
  exact List.eq_of_perm_of_sorted hps hs1 hs2

/-! ### Helper lemmas about the fetch loops -/

theorem filter_tag_ne {l : List Event} {t t' : String} (h : t' ≠ t) :
    (l.map (tagEvent t')).filter (fun e => e.event_type == t) = [] := by
  induction l with
  | nil => rfl
  | cons e es ih => simp [tagEvent, List.filter_cons, h, ih]

theorem v1Loop_filter {c : ClientState} {http : Http} {lr : Dict} {limit : Option Int}
    {t : String} :
    ∀ (types : List String) (acc : List Event) (reqs : List Request),
      (∀ t' ∈ types, t' = t → (http (v1EventsReq c lr limit t')).status ≠ some "success") →
      (v1Loop c http lr limit acc reqs types).1.filter (fun e => e.event_type == t) =
        acc.filter (fun e => e.event_type == t)
  | [], _, _, _ => rfl
  | t' :: ts, acc, reqs, h => by
    have hrest : ∀ x ∈ ts, x = t → (http (v1EventsReq c lr limit x)).status ≠ some "success" :=
      fun x hx => h x (List.mem_cons_of_mem _ hx)
    simp only [v1Loop]
    by_cases hs : (http (v1EventsReq c lr limit t')).status = some "success"
    · rw [if_pos hs]
      have ht' : t' ≠ t := fun he => (h t' (List.mem_cons_self t' ts) he) hs
      rw [v1Loop_filter ts _ _ hrest, List.filter_append, filter_tag_ne ht', List.append_nil]
    · rw [if_neg hs]
      exact v1Loop_filter ts acc _ hrest

theorem v1Loop_len {c : ClientState} {http : Http} {lr : Dict} {limit : Option Int} :
    ∀ (types : List String) (acc : List Event) (reqs : List Request),
      ((v1Loop c http lr limit acc reqs types).2).length = reqs.length + types.length
  | [], _, _ => by simp [v1Loop]
  | t' :: ts, acc, reqs => by
    simp only [v1Loop]
    by_cases hs : (http (v1EventsReq c lr limit t')).status = some "success"
    · rw [if_pos hs, v1Loop_len ts]
      simp
      omega
    · rw [if_neg hs, v1Loop_len ts]
      simp
      omega

theorem v1Loop_reqs_mem {c : ClientState} {http : Http} {lr : Dict} {limit : Option Int}
    (P : Request → Prop) (hP : ∀ t, P (v1EventsReq c lr limit t)) :
    ∀ (types : List String) (acc : List Event) (reqs : List Request),
      (∀ r ∈ reqs, P r) → ∀ r ∈ (v1Loop c http lr limit acc reqs types).2, P r
  | [], _, _, hreqs => hreqs
  | t' :: ts, acc, reqs, hreqs => by
    have hreqs' : ∀ r ∈ reqs ++ [v1EventsReq c lr limit t'], P r := by
      intro r hr
      rcases List.mem_append.mp hr with h | h
      · exact hreqs r h
      · rw [List.mem_singleton.mp h]
        exact hP t'
    simp only [v1Loop]
    by_cases hs : (http (v1EventsReq c lr limit t')).status = some "success"
    · rw [if_pos hs]
      exact v1Loop_reqs_mem P hP ts _ _ hreqs'
    · rw [if_neg hs]
      exact v1Loop_reqs_mem P hP ts _ _ hreqs'

theorem v2Loop_filter {c : ClientState} {http : Http} {lr : Dict} {limit : Option Int}
    {t : String} :
    ∀ (types : List String) (acc : List Event) (reqs : List Request),
      (∀ t' ∈ types, t' = t → (http (v2EventsReq c lr limit t')).ok ≠ some 1) →
      (v2Loop c http lr limit false acc reqs types).1.filter (fun e => e.event_type == t) =
        acc.filter (fun e => e.event_type == t)
  | [], _, _, _ => rfl
  | t' :: ts, acc, reqs, h => by
    have hrest : ∀ x ∈ ts, x = t → (http (v2EventsReq c lr limit x)).ok ≠ some 1 :=
      fun x hx => h x (List.mem_cons_of_mem _ hx)
    simp only [v2Loop]
    by_cases hs : (http (v2EventsReq c lr limit t')).ok = some 1
    · rw [if_pos hs, if_neg (Bool.false_ne_true : ¬ (false : Bool) = true)]
      have ht' : t' ≠ t := fun he => (h t' (List.mem_cons_self t' ts) he) hs
      rw [v2Loop_filter ts _ _ hrest, List.filter_append, filter_tag_ne ht', List.append_nil]
    · rw [if_neg hs]
      exact v2Loop_filter ts acc _ hrest

theorem v2Loop_len {c : ClientState} {http : Http} {lr : Dict} {limit : Option Int} :
    ∀ (types : List String) (acc : List Event) (reqs : List Request),
      ((v2Loop c http lr limit false acc reqs types).2).length = reqs.length + types.length
  | [], _, _ => by simp [v2Loop]
  | t' :: ts, acc, reqs => by
    simp only [v2Loop]
    by_cases hs : (http (v2EventsReq c lr limit t')).ok = some 1
    · rw [if_pos hs, if_neg (Bool.false_ne_true : ¬ (false : Bool) = true), v2Loop_len ts]
      simp
      omega
    · rw [if_neg hs, v2Loop_len ts]
      simp
      omega

theorem v2Loop_reqs_mem {c : ClientState} {http : Http} {lr : Dict} {limit : Option Int}
    {is_test : Bool} (P : Request → Prop) (hP : ∀ t, P (v2EventsReq c lr limit t)) :
    ∀ (types : List String) (acc : List Event) (reqs : List Request),
      (∀ r ∈ reqs, P r) → ∀ r ∈ (v2Loop c http lr limit is_test acc reqs types).2, P r
  | [], _, _, hreqs => hreqs
  | t' :: ts, acc, reqs, hreqs => by
    have hreqs' : ∀ r ∈ reqs ++ [v2EventsReq c lr limit t'], P r := by
      intro r hr
      rcases List.mem_append.mp hr with h | h
      · exact hreqs r h
      · rw [List.mem_singleton.mp h]
        exact hP t'
    simp only [v2Loop]
    by_cases hs : (http (v2EventsReq c lr limit t')).ok = some 1
    · rw [if_pos hs]
      cases is_test with
      | true => exact fun r hr => hreqs' r hr
      | false => exact v2Loop_reqs_mem P hP ts _ _ hreqs'
    · rw [if_neg hs]
      exact v2Loop_reqs_mem P hP ts _ _ hreqs'

theorem v2Loop_test_first {c : ClientState} {http : Http} {lr : Dict} {limit : Option Int} :
    ∀ (pre : List String) (t : String) (post : List String) (acc : List Event)
      (reqs : List Request),
      (∀ t' ∈ pre, (http (v2EventsReq c lr limit t')).ok ≠ some 1) →
      (http (v2EventsReq c lr limit t)).ok = some 1 →
      v2Loop c http lr limit true acc reqs (pre ++ t :: post) =
        (acc ++ ((http (v2EventsReq c lr limit t)).result.getD []).map (tagEvent t),
         reqs ++ (pre ++ [t]).map (v2EventsReq c lr limit))
  | [], t, post, acc, reqs, _, hok => by
    simp [v2Loop, hok]
  | p :: pre, t, post, acc, reqs, hpre, hok => by
    have hp : (http (v2EventsReq c lr limit p)).ok ≠ some 1 :=
      hpre p (List.mem_cons_self p pre)
    simp only [List.cons_append, v2Loop, if_neg hp, List.append_eq]
    rw [v2Loop_test_first pre t post acc _
      (fun x hx => hpre x (List.mem_cons_of_mem _ hx)) hok]
    simp

theorem timeFor_nil_of_lookup {lr : Dict} {key : String} {v : Int} {part : List Event}
    (hpart : part = []) (hv : List.lookup key lr = some v) : timeFor part lr key = .ok v := by
  subst hpart
  simp [timeFor, hv]

/-! ### Claims -/

/-- C1 (amended).  The claim "the checkpoint value computed for each event
type is ≥ that type's previous checkpoint value, for every event batch" is
false on the code (see the counterexample): when a type has records,
`get_last_run` takes the timestamp of the last record after sorting by
`_id`, which can be smaller than the previous checkpoint.  The amended
claim: when every record's timestamp is at least the previous checkpoint of
its type — as holds for records fetched from the time window that starts at
that checkpoint — the new checkpoint per type is ≥ the previous one. -/
theorem claim_C1 {events : List Event} {lr m : Dict}
    (hmono : ∀ e ∈ events, ∀ w : Int, List.lookup e.event_type lr = some w → w ≤ e.timestamp)
    (hok : get_last_run events lr = .ok m)
    (t : String) (v v' : Int) (hv : List.lookup t lr = some v)
    (hv' : List.lookup t m = some v') : v ≤ v' := by
  rcases get_last_run_ok_elim hok with ⟨ta, tp, td, tn, h1, h2, h3, h4, hm⟩
  subst hm
  by_cases e1 : t = "alert"
  · subst e1
    have hx : some ta = some v' := hv'
    rw [← Option.some.inj hx]
    exact le_of_timeFor_ok hmono h1 hv
  · by_cases e2 : t = "application"
    · subst e2
      have hx : some tp = some v' := hv'
      rw [← Option.some.inj hx]
      exact le_of_timeFor_ok hmono h2 hv
    · by_cases e3 : t = "audit"
      · subst e3
        have hx : some td = some v' := hv'
        rw [← Option.some.inj hx]
        exact le_of_timeFor_ok hmono h3 hv
      · by_cases e4 : t = "network"
        · subst e4
          have hx : some tn = some v' := hv'
          rw [← Option.some.inj hx]
          exact le_of_timeFor_ok hmono h4 hv
        · have b1 : (t == "alert") = false := beq_eq_false_iff_ne.mpr e1
          have b2 : (t == "application") = false := beq_eq_false_iff_ne.mpr e2
          have b3 : (t == "audit") = false := beq_eq_false_iff_ne.mpr e3
          have b4 : (t == "network") = false := beq_eq_false_iff_ne.mpr e4
          have : List.lookup t
              [("alert", ta), ("application", tp), ("audit", td), ("network", tn)] = none := by
            simp [List.lookup, b1, b2, b3, b4]
          rw [this] at hv'
          exact Option.noConfusion hv'

/-- Witness for C1 at a concrete batch and checkpoint. -/
theorem claim_C1_witness : (0 : Int) ≤ 2000 :=
  @claim_C1 [⟨"101", 2000, "alert"⟩] lr0
    [("alert", 2000), ("application", 0), ("audit", 0), ("network", 0)]
    (by
      intro e he w hw
      rw [List.mem_singleton] at he
      subst he
      simp [lr0, List.lookup] at hw
      show w ≤ (2000 : Int)
      omega)
    rfl "alert" 0 2000 rfl rfl

/-- C1 counterexample: a batch whose only alert record carries timestamp 5
while the previous alert checkpoint is 100; `get_last_run` moves the alert
watermark backward to 5, refuting the claim as stated. -/
theorem claim_C1_counterexample :
    List.lookup "alert"
      [("alert", 100), ("application", 0), ("audit", 0), ("network", 0)] = some 100 ∧
    get_last_run [⟨"a", 5, "alert"⟩]
      [("alert", 100), ("application", 0), ("audit", 0), ("network", 0)] =
      .ok [("alert", 5), ("application", 0), ("audit", 0), ("network", 0)] ∧
    ¬ (100 : Int) ≤ 5 :=
  ⟨rfl, rfl, by decide⟩

/-- C2 (amended).  The claim quantified over "every previous checkpoint
mapping containing key T" is false on the code: when another type also has
no records and its key is absent, `get_last_run` raises `KeyError` and
returns no mapping at all (see the counterexample).  The amended claim
restricts to previous mappings containing all four type keys: then, for a
batch with no records tagged `T`, `get_last_run` returns a mapping whose
value for `T` equals the previous checkpoint value unchanged. -/
theorem claim_C2 {events : List Event} {lr : Dict} {T : String} {v : Int}
    (hT : T ∈ EVENT_TYPES_V2)
    (hempty : events.filter (fun e => e.event_type == T) = [])
    (ha : (List.lookup "alert" lr).isSome) (hp : (List.lookup "application" lr).isSome)
    (hd : (List.lookup "audit" lr).isSome) (hn : (List.lookup "network" lr).isSome)
    (hv : List.lookup T lr = some v) :
    ∃ m, get_last_run events lr = .ok m ∧ List.lookup T m = some v := by
  have hsorted : get_sorted_events_by_type events T = [] := sorted_eq_nil_iff.mpr hempty
  have hTfor : timeFor (get_sorted_events_by_type events T) lr T = .ok v := by
    rw [hsorted]
    simp [timeFor, hv]
  rcases timeFor_ok_of_isSome (get_sorted_events_by_type events "alert") ha with ⟨xa, hxa⟩
  rcases timeFor_ok_of_isSome (get_sorted_events_by_type events "application") hp
    with ⟨xp, hxp⟩
  rcases timeFor_ok_of_isSome (get_sorted_events_by_type events "audit") hd with ⟨xd, hxd⟩
  rcases timeFor_ok_of_isSome (get_sorted_events_by_type events "network") hn
    with ⟨xn, hxn⟩
  have hT4 : T = "alert" ∨ T = "application" ∨ T = "audit" ∨ T = "network" := by
    simpa [EVENT_TYPES_V2] using hT
  rcases hT4 with rfl | rfl | rfl | rfl
  · exact ⟨_, get_last_run_ok_of hTfor hxp hxd hxn, rfl⟩
  · exact ⟨_, get_last_run_ok_of hxa hTfor hxd hxn, rfl⟩
  · exact ⟨_, get_last_run_ok_of hxa hxp hTfor hxn, rfl⟩
  · exact ⟨_, get_last_run_ok_of hxa hxp hxd hTfor, rfl⟩

/-- Witness for C2 at a concrete batch and checkpoint. -/
theorem claim_C2_witness :
    ∃ m, get_last_run ([] : List Event) lr0 = .ok m ∧ List.lookup "alert" m = some 0 :=
  claim_C2 (T := "alert") (by decide) rfl rfl rfl rfl rfl rfl

/-- C2 counterexample: the batch has no records tagged `alert` and the
previous mapping contains the key `alert`, yet `get_last_run` raises
`KeyError 'application'` instead of returning a mapping. -/
theorem claim_C2_counterexample :
    List.filter (fun e => e.event_type == "alert") ([] : List Event) = [] ∧
    List.lookup "alert" ([("alert", 5)] : Dict) = some 5 ∧
    get_last_run ([] : List Event) [("alert", 5)] = .error "application" :=
  ⟨rfl, rfl, rfl⟩

/-- C8.  For every event batch and every previous checkpoint mapping
containing all four type keys, `get_last_run` returns a mapping with exactly
the keys `alert`, `application`, `audit`, `network` in that order, each
bound to a value. -/
theorem claim_C8 {events : List Event} {lr : Dict}
    (ha : (List.lookup "alert" lr).isSome) (hp : (List.lookup "application" lr).isSome)
    (hd : (List.lookup "audit" lr).isSome) (hn : (List.lookup "network" lr).isSome) :
    ∃ m, get_last_run events lr = .ok m ∧ m.map Prod.fst = EVENT_TYPES_V2 := by
  rcases timeFor_ok_of_isSome (get_sorted_events_by_type events "alert") ha with ⟨xa, hxa⟩
  rcases timeFor_ok_of_isSome (get_sorted_events_by_type events "application") hp
    with ⟨xp, hxp⟩
  rcases timeFor_ok_of_isSome (get_sorted_events_by_type events "audit") hd with ⟨xd, hxd⟩
  rcases timeFor_ok_of_isSome (get_sorted_events_by_type events "network") hn
    with ⟨xn, hxn⟩
  exact ⟨_, get_last_run_ok_of hxa hxp hxd hxn, rfl⟩

/-- Witness for C8 at a concrete batch and checkpoint. -/
theorem claim_C8_witness :
    ∃ m, get_last_run ([⟨"7", 9, "audit"⟩] : List Event) lr0 = .ok m ∧
      m.map Prod.fst = EVENT_TYPES_V2 :=
  claim_C8 rfl rfl rfl rfl

/-- C3.  For a batch of exactly two records of the same type with
identifiers `"100"`/`"101"` and timestamps `1000`/`2000`, and any previous
checkpoint mapping containing all four type keys, `get_last_run` yields
checkpoint value `2000` for that type, for both input orders of the two
records: the last record after sorting the partition by identifier is
selected. -/
theorem claim_C3 {t : String} (ht : t ∈ EVENT_TYPES_V2) {lr : Dict}
    {va vp vd vn : Int}
    (ha : List.lookup "alert" lr = some va) (hp : List.lookup "application" lr = some vp)
    (hd : List.lookup "audit" lr = some vd) (hn : List.lookup "network" lr = some vn) :
    ∃ m1 m2,
      get_last_run [⟨"100", 1000, t⟩, ⟨"101", 2000, t⟩] lr = .ok m1 ∧
      List.lookup t m1 = some 2000 ∧
      get_last_run [⟨"101", 2000, t⟩, ⟨"100", 1000, t⟩] lr = .ok m2 ∧
      List.lookup t m2 = some 2000 := by
  have ht4 : t = "alert" ∨ t = "application" ∨ t = "audit" ∨ t = "network" := by
    simpa [EVENT_TYPES_V2] using ht
  rcases ht4 with rfl | rfl | rfl | rfl
  · exact ⟨_, _,
      get_last_run_ok_of rfl (timeFor_nil_of_lookup rfl hp) (timeFor_nil_of_lookup rfl hd)
        (timeFor_nil_of_lookup rfl hn), rfl,
      get_last_run_ok_of rfl (timeFor_nil_of_lookup rfl hp) (timeFor_nil_of_lookup rfl hd)
        (timeFor_nil_of_lookup rfl hn), rfl⟩
  · exact ⟨_, _,
      get_last_run_ok_of (timeFor_nil_of_lookup rfl ha) rfl (timeFor_nil_of_lookup rfl hd)
        (timeFor_nil_of_lookup rfl hn), rfl,
      get_last_run_ok_of (timeFor_nil_of_lookup rfl ha) rfl (timeFor_nil_of_lookup rfl hd)
        (timeFor_nil_of_lookup rfl hn), rfl⟩
  · exact ⟨_, _,
      get_last_run_ok_of (timeFor_nil_of_lookup rfl ha) (timeFor_nil_of_lookup rfl hp) rfl
        (timeFor_nil_of_lookup rfl hn), rfl,
      get_last_run_ok_of (timeFor_nil_of_lookup rfl ha) (timeFor_nil_of_lookup rfl hp) rfl
        (timeFor_nil_of_lookup rfl hn), rfl⟩
  · exact ⟨_, _,
      get_last_run_ok_of (timeFor_nil_of_lookup rfl ha) (timeFor_nil_of_lookup rfl hp)
        (timeFor_nil_of_lookup rfl hd) rfl, rfl,
      get_last_run_ok_of (timeFor_nil_of_lookup rfl ha) (timeFor_nil_of_lookup rfl hp)
        (timeFor_nil_of_lookup rfl hd) rfl, rfl⟩

/-- Witness for C3 at a concrete type and checkpoint. -/
theorem claim_C3_witness :
    ∃ m1 m2,
      get_last_run [⟨"100", 1000, "network"⟩, ⟨"101", 2000, "network"⟩] lr0 = .ok m1 ∧
      List.lookup "network" m1 = some 2000 ∧
      get_last_run [⟨"101", 2000, "network"⟩, ⟨"100", 1000, "network"⟩] lr0 = .ok m2 ∧
      List.lookup "network" m2 = some 2000 :=
  claim_C3 (by decide) rfl rfl rfl rfl

/-- C6 (amended).  The claim "permuted event batches produce the same
checkpoint mapping" is false on the code when two records of the same type
share an identifier: Python's sort is stable, so ties are broken by input
order (see the counterexample).  The amended claim: for batches whose
records of each type have pairwise distinct identifiers, every permutation
of the batch produces the same checkpoint mapping. -/
theorem claim_C6 {events1 events2 : List Event} {lr : Dict}
    (hperm : events1.Perm events2)
    (hnodup : ∀ t : String,
      ((events1.filter (fun e => e.event_type == t)).map Event.id).Nodup) :
    get_last_run events1 lr = get_last_run events2 lr := by
  unfold get_last_run
  rw [sorted_eq_of_perm hperm (hnodup "alert"), sorted_eq_of_perm hperm (hnodup "application"),
      sorted_eq_of_perm hperm (hnodup "audit"), sorted_eq_of_perm hperm (hnodup "network")]

/-- Witness for C6 at a concrete pair of permuted batches. -/
theorem claim_C6_witness :
    get_last_run [⟨"b", 2, "alert"⟩, ⟨"a", 1, "alert"⟩] lr0 =
      get_last_run [⟨"a", 1, "alert"⟩, ⟨"b", 2, "alert"⟩] lr0 :=
  claim_C6 (List.Perm.swap _ _ _)
    (by
      intro t
      by_cases ht : ("alert" : String) = t
      · subst ht
        decide
      · have hb : (("alert" : String) == t) = false := beq_eq_false_iff_ne.mpr ht
        simp [List.filter, hb])

/-- C4 (amended).  The claim "in test mode the v2 fetch returns as soon as
the first event type yields any record" is false on the code: the loop
returns on the first *successful* response (`ok == 1`), even one carrying
zero records (see the counterexample).  The amended claim: in test mode the
fetch returns as soon as the first event type whose response has `ok == 1`,
returning that response's tagged records (possibly none) and querying no
further event types; types whose responses lack the marker are skipped. -/
theorem claim_C4 {c : ClientState} {http : Http} {lr : Dict} {limit : Option Int}
    {pre : List String} {t : String} {post : List String}
    (hdecomp : EVENT_TYPES_V2 = pre ++ t :: post)
    (hpre : ∀ t' ∈ pre, (http (v2EventsReq c lr limit t')).ok ≠ some 1)
    (hok : (http (v2EventsReq c lr limit t)).ok = some 1) :
    get_events_request_v2 c http lr limit true =
      (((http (v2EventsReq c lr limit t)).result.getD []).map (tagEvent t),
       (pre ++ [t]).map (v2EventsReq c lr limit)) := by
  unfold get_events_request_v2
  rw [hdecomp, v2Loop_test_first pre t post [] [] hpre hok]
  simp

/-- Witness for C4 at a concrete oracle whose `alert` response is marked
successful. -/
theorem claim_C4_witness :
    get_events_request_v2 (Client.init "tok" "v2") httpAlertEmpty lr0 (some 1) true =
      ([], [v2EventsReq (Client.init "tok" "v2") lr0 (some 1) "alert"]) :=
  @claim_C4 (Client.init "tok" "v2") httpAlertEmpty lr0 (some 1) [] "alert"
    ["application", "audit", "network"] rfl
    (fun t' ht' => absurd ht' (List.not_mem_nil t')) rfl

/-- C4 counterexample: against `httpAlertEmpty` the only event type that
yields a record is `application`, yet the test-mode fetch returns no events
and queries only the `alert` endpoint — it stopped at the first successful
but empty response instead of the first type yielding a record. -/
theorem claim_C4_counterexample :
    (httpAlertEmpty (v2EventsReq (Client.init "tok" "v2") lr0 (some 1) "application")).ok
      = some 1 ∧
    (httpAlertEmpty (v2EventsReq (Client.init "tok" "v2") lr0 (some 1)
      "application")).result.getD [] ≠ [] ∧
    (get_events_request_v2 (Client.init "tok" "v2") httpAlertEmpty lr0 (some 1) true).1 = [] ∧
    (get_events_request_v2 (Client.init "tok" "v2") httpAlertEmpty lr0 (some 1) true).2.map
      Request.url_suffix = ["events/data/alert"] :=
  ⟨rfl, by decide, rfl, rfl⟩

/-- C5.  For every event type whose response lacks the success marker
(v1: `status == 'success'`, v2: `ok == 1`), the fetch contributes zero
records tagged with that type, does not raise, and still queries every event
type (three requests for v1, four for v2). -/
theorem claim_C5 {c : ClientState} {http : Http} {lr : Dict} {limit : Option Int}
    {t : String} :
    (t ∈ EVENT_TYPES_V1 → (http (v1EventsReq c lr limit t)).status ≠ some "success" →
      (get_events_request_v1 c http lr limit).1.filter (fun e => e.event_type == t) = [] ∧
      (get_events_request_v1 c http lr limit).2.length = 3)
    ∧ (t ∈ EVENT_TYPES_V2 → (http (v2EventsReq c lr limit t)).ok ≠ some 1 →
      (get_events_request_v2 c http lr limit false).1.filter (fun e => e.event_type == t) = [] ∧
      (get_events_request_v2 c http lr limit false).2.length = 4) := by
  constructor
  · intro _ hfail
    constructor
    · have h := @v1Loop_filter c http lr limit t
        EVENT_TYPES_V1 [] [] (fun t' _ ht' => by rw [ht']; exact hfail)
      simpa [get_events_request_v1] using h
    · have h := @v1Loop_len c http lr limit EVENT_TYPES_V1 [] []
      simpa [get_events_request_v1, EVENT_TYPES_V1] using h
  · intro _ hfail
    constructor
    · have h := @v2Loop_filter c http lr limit t
        EVENT_TYPES_V2 [] [] (fun t' _ ht' => by rw [ht']; exact hfail)
      simpa [get_events_request_v2] using h
    · have h := @v2Loop_len c http lr limit EVENT_TYPES_V2 [] []
      simpa [get_events_request_v2, EVENT_TYPES_V2] using h

/-- Witness for C5 at a concrete oracle that returns empty JSON objects. -/
theorem claim_C5_witness :
    ((get_events_request_v1 (Client.init "tok" "v1") httpEmptyV2 lr0 (some 5)).1.filter
        (fun e => e.event_type == "application") = [] ∧
      (get_events_request_v1 (Client.init "tok" "v1") httpEmptyV2 lr0 (some 5)).2.length = 3) ∧
    ((get_events_request_v2 (Client.init "tok" "v1") httpEmptyV2 lr0 (some 5) false).1.filter
        (fun e => e.event_type == "application") = [] ∧
      (get_events_request_v2 (Client.init "tok" "v1") httpEmptyV2 lr0 (some 5) false).2.length
        = 4) := by
  have h := @claim_C5 (Client.init "tok" "v1") httpEmptyV2 lr0 (some 5) "application"
  exact ⟨h.1 (by decide) (by decide), h.2 (by decide) (by decide)⟩

/-- C7 (code bug).  The claim says `test_module` returns a failure report
string when the one-record fetch yields no records; in the code both fetch
paths return a Python list, and the failure branch evaluates
`response.get("errorCode")` on that list, raising `AttributeError` instead
of returning a string.  This theorem evaluates the embedded `test_module`
at a failing input: an oracle whose responses never carry a success marker,
so the v2 test fetch yields zero records. -/
theorem claim_C7 :
    (get_events_request_v2 (Client.init "tok" "v2") httpEmptyV2 lr0 (some 1) true).1 = [] ∧
    test_module (Client.init "tok" "v2") httpEmptyV2 "v2" lr0 = .error "AttributeError" :=
  ⟨rfl, rfl⟩

/-- C9.  A client constructed with API version `v1` attaches the token as
the query parameter `token` on every request issued by the v1 fetch and the
v1 alerts fetch; a client constructed with any other version sends the
token as the `Netskope-Api-Token` header on every request issued by the v2
fetch. -/
theorem claim_C9 (token version : String) (http : Http) (lr : Dict) (limit : Option Int)
    (is_test : Bool) :
    (version = "v1" →
      (∀ r ∈ (get_events_request_v1 (Client.init token version) http lr limit).2,
        ("token", PVal.str token) ∈ r.params) ∧
      (∀ r ∈ (v1_get_alerts_request (Client.init token version) http lr limit).2,
        ("token", PVal.str token) ∈ r.params))
    ∧ (version ≠ "v1" →
      ∀ r ∈ (get_events_request_v2 (Client.init token version) http lr limit is_test).2,
        ("Netskope-Api-Token", token) ∈ r.headers) := by
  constructor
  · intro hv
    have hc : Client.init token version =
        { session_params := [("token", .str token)], headers := [] } := by
      simp [Client.init, hv]
    constructor
    · exact v1Loop_reqs_mem (fun r => ("token", PVal.str token) ∈ r.params)
        (fun t => by rw [hc]; simp [v1EventsReq, mkRequest]) EVENT_TYPES_V1 [] []
        (fun r hr => absurd hr (List.not_mem_nil r))
    · intro r hr
      have h2 : (v1_get_alerts_request (Client.init token version) http lr limit).2 =
          [v1AlertsReq (Client.init token version) lr limit] := by
        unfold v1_get_alerts_request
        dsimp only
        split <;> rfl
      rw [h2, List.mem_singleton] at hr
      subst hr
      rw [hc]
      simp [v1AlertsReq, mkRequest]
  · intro hv
    have hc : Client.init token version =
        { session_params := [], headers := [("Netskope-Api-Token", token)] } := by
      simp [Client.init, hv]
    exact v2Loop_reqs_mem (fun r => ("Netskope-Api-Token", token) ∈ r.headers)
      (fun t => by rw [hc]; simp [v2EventsReq, mkRequest]) EVENT_TYPES_V2 [] []
      (fun r hr => absurd hr (List.not_mem_nil r))

/-- Witness for C9 at a concrete non-v1 client and request. -/
theorem claim_C9_witness :
    ("Netskope-Api-Token", "tok") ∈
      (v2EventsReq (Client.init "tok" "v2") lr0 none "alert").headers :=
  (claim_C9 "tok" "v2" httpEmptyV2 lr0 none false).2 (by decide)
    (v2EventsReq (Client.init "tok" "v2") lr0 none "alert") (by decide)

/-- C10.  Checkpoint re-initialization from the first-fetch lookback happens
exactly when all four type keys are absent from the persisted mapping; a
mapping with at least one of the four keys is used as-is, and `get_last_run`
then raises a `KeyError` whenever some type key is absent and its partition
of the fetched events is empty. -/
theorem claim_C10 {stored : Dict} {ff : Int} {events : List Event} :
    ((∀ k ∈ EVENT_TYPES_V2, List.lookup k stored = none) →
      init_last_run stored ff =
        [("alert", ff), ("application", ff), ("audit", ff), ("network", ff)])
    ∧ ((∃ k ∈ EVENT_TYPES_V2, (List.lookup k stored).isSome) →
      init_last_run stored ff = stored ∧
      ((∃ k ∈ EVENT_TYPES_V2, List.lookup k stored = none ∧
          events.filter (fun e => e.event_type == k) = []) →
        ∃ k ∈ EVENT_TYPES_V2, get_last_run events stored = .error k ∧
          List.lookup k stored = none ∧
          events.filter (fun e => e.event_type == k) = [])) := by
  constructor
  · intro hall
    unfold init_last_run
    rw [if_pos ⟨by simp [hall "alert" (by decide)], by simp [hall "application" (by decide)],
      by simp [hall "audit" (by decide)], by simp [hall "network" (by decide)]⟩]
  · intro hex
    have hcond : ¬ ((List.lookup "alert" stored).isNone
        ∧ (List.lookup "application" stored).isNone
        ∧ (List.lookup "audit" stored).isNone ∧ (List.lookup "network" stored).isNone) := by
      rcases hex with ⟨k, hk, hsome⟩
      have hk4 : k = "alert" ∨ k = "application" ∨ k = "audit" ∨ k = "network" := by
        simpa [EVENT_TYPES_V2] using hk
      rintro ⟨c1, c2, c3, c4⟩
      rcases hk4 with rfl | rfl | rfl | rfl
      · rw [Option.isNone_iff_eq_none.mp c1] at hsome
        simp at hsome
      · rw [Option.isNone_iff_eq_none.mp c2] at hsome
        simp at hsome
      · rw [Option.isNone_iff_eq_none.mp c3] at hsome
        simp at hsome
      · rw [Option.isNone_iff_eq_none.mp c4] at hsome
        simp at hsome
    constructor
    · unfold init_last_run
      rw [if_neg hcond]
    · intro hfail
      cases hglr : get_last_run events stored with
      | ok m =>
        rcases get_last_run_ok_elim hglr with ⟨ta, tp, td, tn, h1, h2, h3, h4, _⟩
        rcases hfail with ⟨k, hk, hnone, hempty⟩
        have hsorted : get_sorted_events_by_type events k = [] := sorted_eq_nil_iff.mpr hempty
        have hk4 : k = "alert" ∨ k = "application" ∨ k = "audit" ∨ k = "network" := by
          simpa [EVENT_TYPES_V2] using hk
        rcases hk4 with rfl | rfl | rfl | rfl
        · rw [timeFor_error_iff.mpr ⟨rfl, hsorted, hnone⟩] at h1
          exact Except.noConfusion h1
        · rw [timeFor_error_iff.mpr ⟨rfl, hsorted, hnone⟩] at h2
          exact Except.noConfusion h2
        · rw [timeFor_error_iff.mpr ⟨rfl, hsorted, hnone⟩] at h3
          exact Except.noConfusion h3
        · rw [timeFor_error_iff.mpr ⟨rfl, hsorted, hnone⟩] at h4
          exact Except.noConfusion h4
      | error j =>
        rcases get_last_run_error_elim hglr with ⟨hj4, hjsort, hjnone⟩
        exact ⟨j, hj4, rfl, hjnone, sorted_eq_nil_iff.mp hjsort⟩

/-- Witness for C10 at a concrete partially populated mapping. -/
theorem claim_C10_witness :
    init_last_run [("alert", 7)] 1 = [("alert", 7)] ∧
    (∃ k ∈ EVENT_TYPES_V2, get_last_run ([] : List Event) [("alert", 7)] = .error k ∧
      List.lookup k ([("alert", 7)] : Dict) = none ∧
      List.filter (fun e => e.event_type == k) ([] : List Event) = []) := by
  have h := (@claim_C10 [("alert", 7)] 1 ([] : List Event)).2
    ⟨"alert", by decide, rfl⟩
  exact ⟨h.1, h.2 ⟨"application", by decide, rfl, rfl⟩⟩

/-- C6 counterexample: two alert records sharing identifier `"x"`; swapping
their order changes the alert checkpoint (stable sort keeps input order on
equal keys), refuting the claim as stated. -/
theorem claim_C6_counterexample :
    ([⟨"x", 1, "alert"⟩, ⟨"x", 2, "alert"⟩] : List Event).Perm
      [⟨"x", 2, "alert"⟩, ⟨"x", 1, "alert"⟩] ∧
    get_last_run [⟨"x", 1, "alert"⟩, ⟨"x", 2, "alert"⟩] lr0 ≠
      get_last_run [⟨"x", 2, "alert"⟩, ⟨"x", 1, "alert"⟩] lr0 :=
  ⟨List.Perm.swap _ _ _, by decide⟩

end Netskope
